import Mathlib

/-!
Shallow embedding of the `react-time-travel` core: the virtual-clock
controller (`TimeControllerImpl` in `packages/core/src` controller module),
the environment policy (`shouldEnableTimeControl` in the environment module)
and the interception shim manager (`TimeHijacker` in the hijacker module).

JavaScript numbers are modelled by `JSNum`: an exact integer payload for
finite values plus the three non-finite values `nan`, `posInf`, `negInf`.
All concrete inputs used below are integers small enough to be exactly
representable as IEEE doubles, so exact integer arithmetic agrees with the
JavaScript arithmetic at every input mentioned in a theorem.

JavaScript `Date` objects are modelled by `JSDate`: a valid date holds an
integer time value clipped to the ECMAScript range `|t| ≤ 8.64e15`
(TimeClip); everything else is the Invalid Date, whose `getTime()` is NaN.
-/

namespace RTT

/-- JavaScript number, restricted to exact integers plus the non-finite values. -/
inductive JSNum where
  | num (v : Int)
  | nan
  | posInf
  | negInf
deriving DecidableEq, Repr

/-- JavaScript addition on `JSNum` (NaN absorbs; opposite infinities give NaN). -/
def jsAdd : JSNum → JSNum → JSNum
  | .nan, _ => .nan
  | _, .nan => .nan
  | .posInf, .negInf => .nan
  | .negInf, .posInf => .nan
  | .posInf, _ => .posInf
  | _, .posInf => .posInf
  | .negInf, _ => .negInf
  | _, .negInf => .negInf
  | .num a, .num b => .num (a + b)

/-- Multiplication of a `JSNum` by a positive integer constant (the
`60 * 1000`, `60 * 60 * 1000`, `24 * 60 * 60 * 1000` multipliers of
`addMinutes` / `addHours` / `addDays`). -/
def jsMulConst : JSNum → Int → JSNum
  | .num a, k => .num (a * k)
  | .nan, _ => .nan
  | .posInf, _ => .posInf
  | .negInf, _ => .negInf

/-- Maximal ECMAScript time value in milliseconds (8.64e15). -/
def maxTime : Int := 8640000000000000

/-- JavaScript `Date`: a valid date with an integer time value, or the Invalid Date. -/
inductive JSDate where
  | valid (t : Int)
  | invalid
deriving DecidableEq, Repr

/-- `new Date(n)` for a numeric argument: ECMAScript TimeClip — values with
`|t| ≤ 8.64e15` give a valid date, everything else (including NaN and the
infinities) gives the Invalid Date. -/
def dateFromNum : JSNum → JSDate
  | .num v => if -maxTime ≤ v ∧ v ≤ maxTime then .valid v else .invalid
  | .nan => .invalid
  | .posInf => .invalid
  | .negInf => .invalid

/-- `Date.prototype.getTime`: NaN on the Invalid Date. -/
def dateGetTime : JSDate → JSNum
  | .valid t => .num t
  | .invalid => .nan

/-- Runtime environment, from the environment module. -/
inductive Environment where
  | development
  | test
  | production
deriving DecidableEq, BEq, Repr

/-- Embeds `shouldEnableTimeControl` (environment module): never enable in
production; enable in development and test. -/
def shouldEnableTimeControl (env : Environment) : Bool :=
  if env = .production then false
  else decide (env = .development) || decide (env = .test)

/-- Errors thrown by the controller (`throw new Error(...)` sites), plus the
tag for an exception escaping the user-supplied `onTimeChange` callback. -/
inductive JSErr where
  | invalidTime
  | invalidDuration
  | invalidCallback
  | onChangeError
deriving DecidableEq, Repr

/-! ## Controller core state (activation flag and current instant)

`CoreState` carries the fields of `TimeControllerImpl` that the state-machine
claims are about: `currentTime`, `enabled` and the (fixed) configured
environment. The subscriber set and its notification rounds are modelled
separately below; none of the operations here touch them in a way that can
change `enabled` or `currentTime`. -/

structure CoreState where
  currentTime : JSDate
  enabled : Bool
  environment : Environment
deriving DecidableEq, Repr

/-- Embeds `setTime` restricted to its state effect: `new Date(time)`,
throw on an invalid result, otherwise replace `currentTime`. -/
def setTimeCore (s : CoreState) (v : JSNum) : Except JSErr CoreState :=
  match dateFromNum v with
  | .invalid => .error .invalidTime
  | .valid t => .ok { s with currentTime := .valid t }

/-- Embeds `addTime` restricted to its state effect. The source guard is
`typeof milliseconds !== 'number' || isNaN(milliseconds)`: only NaN (among
numbers) is rejected; the result `new Date(getTime() + ms)` is not
validated. -/
def addTimeCore (s : CoreState) (ms : JSNum) : Except JSErr CoreState :=
  if ms = JSNum.nan then .error .invalidDuration
  else .ok { s with currentTime := dateFromNum (jsAdd (dateGetTime s.currentTime) ms) }

/-- Embeds `addMinutes`: `addTime(minutes * 60 * 1000)`. -/
def addMinutesCore (s : CoreState) (m : JSNum) : Except JSErr CoreState :=
  addTimeCore s (jsMulConst m 60000)

/-- Embeds `addHours`: `addTime(hours * 60 * 60 * 1000)`. -/
def addHoursCore (s : CoreState) (m : JSNum) : Except JSErr CoreState :=
  addTimeCore s (jsMulConst m 3600000)

/-- Embeds `addDays`: `addTime(days * 24 * 60 * 60 * 1000)`. -/
def addDaysCore (s : CoreState) (m : JSNum) : Except JSErr CoreState :=
  addTimeCore s (jsMulConst m 86400000)

/-- Embeds `enable`: no-op when already enabled; consults
`shouldEnableTimeControl` and refuses (a logged warning, not a throw) when
the policy forbids; otherwise flips the flag (the hijack installation it
triggers is modelled in the hijacker section). -/
def enableCore (s : CoreState) : CoreState :=
  if s.enabled then s
  else if !shouldEnableTimeControl s.environment then s
  else { s with enabled := true }

/-- Embeds `disable`: no-op when already disabled, otherwise clears the flag. -/
def disableCore (s : CoreState) : CoreState :=
  if !s.enabled then s else { s with enabled := false }

/-- Configuration options relevant to the core state
(`enabled?: boolean` — `none` is the "auto" case — `startTime`, `environment`). -/
structure CoreOptions where
  enabledOpt : Option Bool
  startTime : JSNum
  environment : Environment
deriving Repr

/-- Embeds the `TimeControllerImpl` constructor: resolve `enabled` with
`options.enabled ?? shouldEnableTimeControl(environment)`, run
`setTime(startTime)` (which can throw), then call `enable()` when the
resolved flag is set. `realNow` stands for the wall-clock instant read by
the field initializer `new Date()`. -/
def mkController (realNow : Int) (opts : CoreOptions) : Except JSErr CoreState :=
  let s0 : CoreState :=
    { currentTime := dateFromNum (.num realNow)
      enabled := false
      environment := opts.environment }
  let enabled0 := opts.enabledOpt.getD (shouldEnableTimeControl opts.environment)
  match setTimeCore s0 opts.startTime with
  | .error e => .error e
  | .ok s1 => .ok (if enabled0 then enableCore s1 else s1)

/-- Public operations of the controller that touch the core state.
`subscribeOp` / `unsubscribeOp` only mutate the subscriber set (modelled in
the notification section) and never the instant or the flag, so they are
identities here; `destroyOp` runs `disable()` and then clears hijack and
subscriber storage. `resetToRealTime` reads the global `new Date()`, which
is the pristine wall clock as long as interception was never installed —
the case of an enabled, hijacked controller is modelled in the hijacker
section. Operations that throw leave the state unchanged at the caller. -/
inductive Op where
  | setTime (v : JSNum)
  | addTime (ms : JSNum)
  | addMinutes (m : JSNum)
  | addHours (m : JSNum)
  | addDays (m : JSNum)
  | resetToRealTime (realNow : Int)
  | enable
  | disable
  | subscribeOp
  | unsubscribeOp
  | destroyOp
deriving Repr

/-- Interprets one public operation on the core state; a thrown validation
error leaves the state unchanged at the call site. -/
def applyOp (s : CoreState) : Op → CoreState
  | .setTime v => ((setTimeCore s v).toOption).getD s
  | .addTime ms => ((addTimeCore s ms).toOption).getD s
  | .addMinutes m => ((addMinutesCore s m).toOption).getD s
  | .addHours m => ((addHoursCore s m).toOption).getD s
  | .addDays m => ((addDaysCore s m).toOption).getD s
  | .resetToRealTime realNow => ((setTimeCore s (.num realNow)).toOption).getD s
  | .enable => enableCore s
  | .disable => disableCore s
  | .subscribeOp => s
  | .unsubscribeOp => s
  | .destroyOp => disableCore s

/-- Runs a sequence of public operations. -/
def runOps (s : CoreState) (ops : List Op) : CoreState :=
  ops.foldl applyOp s

/-- Helper for the initial activation state: `isActive()` right after
construction with the given environment and explicit `enabled` option
(`none` = "auto"), with a fixed valid start time. -/
def isActiveAfterInit (env : Environment) (opt : Option Bool) : Bool :=
  match mkController 0 { enabledOpt := opt, startTime := .num 0, environment := env } with
  | .ok s => s.enabled
  | .error _ => false

/-! ## Subscriber set and notification rounds

`notifySubscribers` in the source iterates the live `Set` of callbacks with
`Set.prototype.forEach` and wraps each invocation in `try`/`catch`. Per the
ECMAScript specification, `forEach` walks the underlying entry list by
position: an element deleted during the iteration before being visited is
skipped, and an element appended during the iteration is visited in the
same traversal. The entry list is modelled with explicit tombstones
(`Option SubId` with `none` for a deleted slot) to preserve positions
during a round.

Callbacks are identified by `SubId` and their behaviour is given by a
finite table `CbTable`: a callback may do nothing, subscribe another
callback, unsubscribe a callback, or throw (which the round catches and
logs). An id absent from the table does nothing. -/

abbrev SubId := Nat

/-- Observable behaviour of a subscriber callback during a round. -/
inductive CbEffect where
  | noop
  | addSub (d : SubId)
  | removeSub (d : SubId)
  | throwErr
deriving DecidableEq, Repr

abbrev CbTable := List (SubId × CbEffect)

/-- Behaviour table lookup; an id that is not listed does nothing. -/
def lookupEff (effs : CbTable) (x : SubId) : CbEffect :=
  match effs.find? (fun p => p.1 == x) with
  | some p => p.2
  | none => .noop

/-- Subscriber entry list: `none` is a slot whose element was deleted. -/
abbrev Entries := List (Option SubId)

/-- `Set.prototype.add`: appends only when the element is not already present. -/
def entAdd (es : Entries) (x : SubId) : Entries :=
  if some x ∈ es then es else es ++ [some x]

/-- `Set.prototype.delete`: empties the slot holding the element (positions
of the other entries are unchanged, as during an active iteration). -/
def entDelete (es : Entries) (x : SubId) : Entries :=
  es.map (fun e => if e = some x then none else e)

/-- Live members of the subscriber set, in insertion order. -/
def entMembers (es : Entries) : List SubId :=
  es.filterMap id

/-- Outcome of one notification round: the entry list after the round, the
callbacks invoked in order, and the callbacks whose exception was caught
and logged. -/
structure RoundResult where
  entries : Entries
  invoked : List SubId
  errors : List SubId
deriving DecidableEq, Repr

/-- One `forEach` traversal: visit position `i`; a tombstone is skipped, a
live callback is invoked (its effect applied to the live entry list, a
throw caught and logged) and the traversal moves on. `fuel` bounds the
number of visited positions — a table whose callbacks keep subscribing
fresh callbacks makes the real `forEach` run unboundedly too, and every
theorem below supplies fuel that the round does not exhaust. -/
def roundAux (effs : CbTable) : Nat → Nat → Entries → List SubId → List SubId → RoundResult
  | 0, _, es, inv, errs => ⟨es, inv, errs⟩
  | fuel + 1, i, es, inv, errs =>
    match es.get? i with
    | none => ⟨es, inv, errs⟩
    | some none => roundAux effs fuel (i + 1) es inv errs
    | some (some x) =>
      match lookupEff effs x with
      | .noop => roundAux effs fuel (i + 1) es (inv ++ [x]) errs
      | .throwErr => roundAux effs fuel (i + 1) es (inv ++ [x]) (errs ++ [x])
      | .addSub d => roundAux effs fuel (i + 1) (entAdd es d) (inv ++ [x]) errs
      | .removeSub d => roundAux effs fuel (i + 1) (entDelete es d) (inv ++ [x]) errs

/-- Embeds `notifySubscribers`: one full `forEach` round over the current
entry list. The fuel `es.length + effs.length + 1` covers every position the
traversal can reach, because only a listed `addSub` effect can append an
entry and appending an already-present element is a no-op. -/
def notifyRound (effs : CbTable) (es : Entries) : RoundResult :=
  roundAux effs (es.length + effs.length + 1) 0 es [] []

/-- Controller state including the subscriber set. -/
structure NotifyState where
  currentTime : JSDate
  entries : Entries
deriving DecidableEq, Repr

/-- Result of a mutation: the state afterwards (the mutation is never rolled
back once applied), the subscribers invoked, the subscriber exceptions
caught, and the outcome seen by the caller. -/
instance {ε α : Type} [DecidableEq ε] [DecidableEq α] : DecidableEq (Except ε α) := fun a b =>
  match a, b with
  | .ok x, .ok y =>
    if h : x = y then isTrue (by rw [h]) else isFalse (fun hc => h (Except.ok.inj hc))
  | .error e, .error f =>
    if h : e = f then isTrue (by rw [h]) else isFalse (fun hc => h (Except.error.inj hc))
  | .ok _, .error _ => isFalse (fun hc => Except.noConfusion hc)
  | .error _, .ok _ => isFalse (fun hc => Except.noConfusion hc)

structure MutationResult where
  state : NotifyState
  invoked : List SubId
  errorsCaught : List SubId
  result : Except JSErr Unit
deriving DecidableEq, Repr

/-- Embeds `setTime` with notification: validate (`new Date(time)` then the
NaN check — a failure leaves everything untouched), replace the instant,
run the round, then call `onTimeChange` outside any `try`/`catch`, so an
exception it throws reaches the caller only after the instant was replaced
and the round completed. -/
def setTimeN (effs : CbTable) (onChangeThrows : Bool) (s : NotifyState) (v : JSNum) :
    MutationResult :=
  match dateFromNum v with
  | .invalid => ⟨s, [], [], .error .invalidTime⟩
  | .valid t =>
    let r := notifyRound effs s.entries
    ⟨{ currentTime := .valid t, entries := r.entries }, r.invoked, r.errors,
      if onChangeThrows then .error .onChangeError else .ok ()⟩

/-- Embeds `addTime` with notification: the source rejects only NaN, then
stores `new Date(getTime() + ms)` unvalidated and notifies. -/
def addTimeN (effs : CbTable) (onChangeThrows : Bool) (s : NotifyState) (ms : JSNum) :
    MutationResult :=
  if ms = JSNum.nan then ⟨s, [], [], .error .invalidDuration⟩
  else
    let t := dateFromNum (jsAdd (dateGetTime s.currentTime) ms)
    let r := notifyRound effs s.entries
    ⟨{ currentTime := t, entries := r.entries }, r.invoked, r.errors,
      if onChangeThrows then .error .onChangeError else .ok ()⟩

/-! ## Interception shim manager (hijacker)

State per target. For the native surface, `hijackNativeFunctions` is
guarded by the `isHijacked` flag, stores the current global `Date` in the
backup and installs the controlled constructor; `restoreNativeFunctions`
reinstates the backup and clears the flag (the backup reference itself is
kept until `destroy`). For the `dayjs` integration there is no such guard:
each `hijackDayjs` call wraps whatever the current global `dayjs` is —
possibly an earlier wrapper — into a new controlled function whose
`__original` property points to the wrapped value, and `restoreDayjs`
unwraps exactly one layer. For the `moment` integration `hijackMoment`
likewise wraps the current `moment.now` unconditionally, and
`restoreMoment` reinstates the wrapped value and then deletes its
`__original` property (so a doubly-wrapped `moment.now` can never be
restored past the first unwrapping). -/

/-- The global `Date` binding: the pristine built-in or the installed shim. -/
inductive DateBinding where
  | original
  | controlled
deriving DecidableEq, Repr

/-- Hijacker state for the native surface: the global binding, the
`isHijacked` flag and the `backup` field. -/
structure NativeHijack where
  dateBinding : DateBinding
  isHijacked : Bool
  backup : Option DateBinding
deriving DecidableEq, Repr

/-- State before any installation. -/
def pristineNative : NativeHijack :=
  { dateBinding := .original, isHijacked := false, backup := none }

/-- Embeds `hijackNativeFunctions`: a second call without an intervening
restore returns immediately on the `isHijacked` guard. -/
def hijackNativeFunctions (h : NativeHijack) : NativeHijack :=
  if h.isHijacked then h
  else { dateBinding := .controlled, isHijacked := true, backup := some h.dateBinding }

/-- Embeds `restoreNativeFunctions`: no-op unless hijacked with a backup;
otherwise reinstates the backed-up binding and clears the flag (the source
keeps the `backup` reference until `destroy`). -/
def restoreNativeFunctions (h : NativeHijack) : NativeHijack :=
  if !h.isHijacked then h
  else
    match h.backup with
    | none => h
    | some b => { h with dateBinding := b, isHijacked := false }

/-- The global `dayjs` binding: the pristine library function, or a
controlled wrapper whose `__original` property holds the wrapped value. -/
inductive DayjsBinding where
  | original
  | wrapped (inner : DayjsBinding)
deriving DecidableEq, Repr

/-- Embeds `hijackDayjs` (library detected): unconditionally replaces the
global binding by a fresh wrapper around the current binding. -/
def hijackDayjs (d : DayjsBinding) : DayjsBinding :=
  .wrapped d

/-- Embeds `restoreDayjs`: when the current binding carries `__original`,
reinstate that value; otherwise do nothing. -/
def restoreDayjs : DayjsBinding → DayjsBinding
  | .wrapped inner => inner
  | .original => .original

/-- The `moment.now` binding: the pristine function, or a controlled
wrapper delegating to `inner`; `hasRef` records whether its `__original`
property is still present (restoration deletes it from the reinstated
function). -/
inductive MomentNow where
  | original
  | wrapper (inner : MomentNow) (hasRef : Bool)
deriving DecidableEq, Repr

/-- Deletion of the `__original` property from a `moment.now` value. -/
def momentDeleteRef : MomentNow → MomentNow
  | .wrapper x _ => .wrapper x false
  | .original => .original

/-- Embeds `hijackMoment` (library detected): unconditionally replaces
`moment.now` by a wrapper with `__original` set to the current value. -/
def hijackMoment (m : MomentNow) : MomentNow :=
  .wrapper m true

/-- Embeds `restoreMoment`: guarded by the presence of `__original`;
reinstates the referenced value and then deletes `__original` from it. -/
def restoreMoment : MomentNow → MomentNow
  | .wrapper inner true => momentDeleteRef inner
  | .wrapper inner false => .wrapper inner false
  | .original => .original

/-- Install and restore calls on the native surface. -/
inductive NativeOp where
  | install
  | restore
deriving DecidableEq, BEq, Repr

/-- Interprets a native install/restore call. -/
def applyNativeOp (h : NativeHijack) : NativeOp → NativeHijack
  | .install => hijackNativeFunctions h
  | .restore => restoreNativeFunctions h

/-- Runs a sequence of native install/restore calls. -/
def runNative (h : NativeHijack) (ops : List NativeOp) : NativeHijack :=
  ops.foldl applyNativeOp h

/-- The side condition of the hijack/restore invariant: every install in the
sequence is eventually followed by a restore. -/
def everyInstallRestored : List NativeOp → Bool
  | [] => true
  | .install :: rest => rest.contains .restore && everyInstallRestored rest
  | .restore :: rest => everyInstallRestored rest

/-! ## The time surface as observed by callers

`TimeWorld` is what an intercepted call can see: the wall clock, the
controller's virtual instant and activation flag, and which binding the
global `Date` currently is. The evaluation functions below embed each
intercepted call shape of the shims.

The zero-argument construction path of `ControlledDate` reads
`new this.constructor.original(timeController.getCurrentTime().getTime())`
and the zero-argument plain call reads
`timeController.getCurrentTime().toString()`; neither consults
`isActive()`, unlike the `Date.now`, `moment.now` and `dayjs` shims, which
all delegate to the original when the controller is inactive. The
construction path is modelled as the delegation it spells, which reads the
virtual instant unconditionally. (At runtime the lookup is in fact broken
as well: `ControlledDate.prototype` is assigned the original
`Date.prototype`, so `this.constructor` resolves to the pristine `Date`,
which has no `original` property — the model charitably takes the
delegation at face value, which is the reading most favourable to the
code.) -/

structure TimeWorld where
  realNow : Int
  virtualTime : JSDate
  ctrlEnabled : Bool
  dateBinding : DateBinding
deriving DecidableEq, Repr

/-- Embeds `getCurrentTime`: a defensive copy,
`new Date(this.currentTime.getTime())`. -/
def getCurrentTimeW (w : TimeWorld) : JSDate :=
  dateFromNum (dateGetTime w.virtualTime)

/-- What the pristine `new Date()` returns: the wall-clock instant. -/
def originalNewDate0 (w : TimeWorld) : JSDate :=
  dateFromNum (.num w.realNow)

/-- Zero-argument `new Date()` through the current global binding. Under the
shim this is `new original(getCurrentTime().getTime())` with no
`isActive()` guard. -/
def evalNewDate0 (w : TimeWorld) : JSDate :=
  match w.dateBinding with
  | .original => originalNewDate0 w
  | .controlled => dateFromNum (dateGetTime (getCurrentTimeW w))

/-- Zero-argument plain call `Date()` through the current global binding,
modelled as the date whose string representation is returned. Under the
shim this is `getCurrentTime().toString()` with no `isActive()` guard. -/
def evalDateCall0 (w : TimeWorld) : JSDate :=
  match w.dateBinding with
  | .original => originalNewDate0 w
  | .controlled => getCurrentTimeW w

/-- `Date.now()` through the current global binding. The shim delegates to
the backed-up `Date.now` unless the controller is active. -/
def evalDateNow (w : TimeWorld) : JSNum :=
  match w.dateBinding with
  | .original => .num w.realNow
  | .controlled =>
    if !w.ctrlEnabled then .num w.realNow
    else dateGetTime (getCurrentTimeW w)

/-- Zero-argument `dayjs()` through the given binding. The wrapper uses the
virtual instant only when the controller is active, otherwise it delegates
to the wrapped function. -/
def evalDayjs0 (w : TimeWorld) : DayjsBinding → JSDate
  | .original => originalNewDate0 w
  | .wrapped inner =>
    if w.ctrlEnabled then getCurrentTimeW w else evalDayjs0 w inner

/-- `moment.now()` through the given binding. The wrapper closure delegates
to the captured original unless the controller is active. -/
def evalMomentNow (w : TimeWorld) : MomentNow → JSNum
  | .original => .num w.realNow
  | .wrapper inner _ =>
    if !w.ctrlEnabled then evalMomentNow w inner
    else dateGetTime (getCurrentTimeW w)

/-- Embeds `resetToRealTime`: `this.setTime(new Date())`, where `new Date()`
goes through whatever the global `Date` binding currently is. -/
def resetToRealTimeW (w : TimeWorld) : Except JSErr TimeWorld :=
  match evalNewDate0 w with
  | .invalid => .error .invalidTime
  | .valid t => .ok { w with virtualTime := dateFromNum (.num t) }

/-- JavaScript unary negation on `JSNum`. -/
def jsNeg : JSNum → JSNum
  | .num a => .num (-a)
  | .nan => .nan
  | .posInf => .negInf
  | .negInf => .posInf

/-- Calls of the inverse-law scenario: `addMinutes(m)` then `addMinutes(-m)`
(a thrown error stops the scenario, as it would stop the calling code). -/
def addMinutesThenInverse (s : CoreState) (m : JSNum) : Except JSErr CoreState :=
  match addMinutesCore s m with
  | .error e => .error e
  | .ok s1 => addMinutesCore s1 (jsNeg m)

/-! ## Theorems -/

/-- C2 counterexample: with the `dayjs` integration present, calling the
install a second time without an intervening restore is not a no-op — it
wraps the already-controlled binding again — and a single restore then
yields the once-wrapped binding, not the pristine one. A doubly-installed
`moment.now` cannot be restored to pristine even by two restores, because
the first restore deletes the `__original` reference from the reinstated
wrapper. -/
theorem dayjs_double_install_not_pristine :
    restoreDayjs (hijackDayjs (hijackDayjs DayjsBinding.original)) ≠ DayjsBinding.original
    ∧ hijackDayjs (hijackDayjs DayjsBinding.original) ≠ hijackDayjs DayjsBinding.original
    ∧ restoreMoment (restoreMoment (hijackMoment (hijackMoment MomentNow.original)))
        ≠ MomentNow.original := by
  decide

/-- C3: with the shims installed and the controller Disabled (virtual
instant 1000 ms, wall clock 5000 ms), the zero-argument `new Date()` and
the plain `Date()` call deliver the virtual instant — they have no
`isActive()` guard — while the pristine binding would deliver the wall
clock; `Date.now()` and the `moment`/`dayjs` entry points do delegate to
the originals. -/
theorem disabled_shim_not_transparent :
    (evalNewDate0 ⟨5000, .valid 1000, false, .controlled⟩ = .valid 1000
      ∧ originalNewDate0 ⟨5000, .valid 1000, false, .controlled⟩ = .valid 5000
      ∧ evalNewDate0 ⟨5000, .valid 1000, false, .controlled⟩
          ≠ originalNewDate0 ⟨5000, .valid 1000, false, .controlled⟩)
    ∧ evalDateCall0 ⟨5000, .valid 1000, false, .controlled⟩
        ≠ originalNewDate0 ⟨5000, .valid 1000, false, .controlled⟩
    ∧ evalDateNow ⟨5000, .valid 1000, false, .controlled⟩ = .num 5000
    ∧ evalDayjs0 ⟨5000, .valid 1000, false, .controlled⟩ (.wrapped .original) = .valid 5000
    ∧ evalMomentNow ⟨5000, .valid 1000, false, .controlled⟩ (.wrapper .original true)
        = .num 5000 := by
  decide

/-- C5: `addTime` rejects only NaN. At `Infinity` (and `-Infinity`) it does
not throw: it silently replaces the instant by the Invalid Date and still
notifies the subscribers — the claimed `InvalidDurationError` with
unchanged state happens only for NaN. For an in-range finite duration the
new instant is the old one plus the duration. -/
theorem addTime_infinity_not_rejected :
    ((addTimeN [] false ⟨.valid 0, [some 0]⟩ .posInf).result = .ok ()
      ∧ (addTimeN [] false ⟨.valid 0, [some 0]⟩ .posInf).state.currentTime = .invalid
      ∧ (addTimeN [] false ⟨.valid 0, [some 0]⟩ .posInf).invoked = [0])
    ∧ (addTimeN [] false ⟨.valid 0, [some 0]⟩ .negInf).result = .ok ()
    ∧ ((addTimeN [] false ⟨.valid 0, [some 0]⟩ .nan).result = .error .invalidDuration
      ∧ (addTimeN [] false ⟨.valid 0, [some 0]⟩ .nan).state = ⟨.valid 0, [some 0]⟩
      ∧ (addTimeN [] false ⟨.valid 0, [some 0]⟩ .nan).invoked = [])
    ∧ (addTimeN [] false ⟨.valid 0, [some 0]⟩ (.num 7)).state.currentTime = .valid 7 := by
  decide

/-- C6: with the controller Enabled and native interception installed
(virtual instant 1000 ms, wall clock 5000 ms), `resetToRealTime()` reads
`new Date()` through the installed shim, which delivers the virtual
instant, so the instant stays 1000 instead of becoming the wall-clock
5000; on the un-hijacked binding the same call does reset to 5000. -/
theorem reset_under_hijack_keeps_virtual :
    resetToRealTimeW ⟨5000, .valid 1000, true, .controlled⟩
        = .ok ⟨5000, .valid 1000, true, .controlled⟩
    ∧ (JSDate.valid 1000 : JSDate) ≠ .valid 5000
    ∧ resetToRealTimeW ⟨5000, .valid 1000, false, .original⟩
        = .ok ⟨5000, .valid 5000, false, .original⟩ := by
  decide

/-- C7 counterexample: from instant 0, `addMinutes(150000000000)` overflows
the ECMAScript date range (150000000000 × 60000 = 9×10¹⁵ > 8.64×10¹⁵ —
both numbers exactly representable as doubles), so the instant becomes the
Invalid Date; `addMinutes(-150000000000)` then adds to NaN and the instant
stays Invalid instead of returning to 0. -/
theorem addMinutes_inverse_fails_on_overflow :
    addMinutesThenInverse ⟨.valid 0, false, .development⟩ (.num 150000000000)
        = .ok ⟨.invalid, false, .development⟩
    ∧ (JSDate.invalid : JSDate) ≠ .valid 0 := by
  decide

/-- C8 counterexample: constructing a controller with the explicit option
`enabled: true` in the production environment leaves it inactive — the
constructor routes through `enable()`, which re-checks the environment
policy and refuses. -/
theorem explicit_true_ignored_in_production :
    isActiveAfterInit Environment.production (some true) = false := by
  decide

/-- C4 counterexample: the notification round iterates the live subscriber
set, not a snapshot. With subscribers {0, 1} at round start and callback 0
subscribing a new callback 2, the same round invokes 0, 1 and then 2 —
not exactly the round-start members {0, 1}; with callback 0 instead
unsubscribing 1, the round invokes only 0. -/
theorem round_iterates_live_set :
    (notifyRound [(0, CbEffect.addSub 2)] [some 0, some 1]).invoked = [0, 1, 2]
    ∧ (notifyRound [(0, CbEffect.addSub 2)] [some 0, some 1]).invoked
        ≠ entMembers [some 0, some 1]
    ∧ (notifyRound [(0, CbEffect.removeSub 1)] [some 0, some 1]).invoked = [0] := by
  decide

/-- C4 amended: `notifySubscribers` iterates the live subscriber set in
insertion order, so membership changes made by a callback take effect
within the round in progress: for any distinct subscriber identities
`a`, `b` and fresh identity `c`, when `a` subscribes `c` during the round
over {a, b}, the round invokes `a`, `b` and then `c`, and `c` stays for
subsequent rounds; when `a` instead unsubscribes the not-yet-visited `b`,
the round invokes only `a` and `b` is gone for subsequent rounds. -/
theorem round_uses_live_membership (a b c : SubId)
    (hab : a ≠ b) (hac : a ≠ c) (hbc : b ≠ c) :
    ((notifyRound [(a, CbEffect.addSub c)] [some a, some b]).invoked = [a, b, c]
      ∧ entMembers (notifyRound [(a, CbEffect.addSub c)] [some a, some b]).entries
          = [a, b, c])
    ∧ ((notifyRound [(a, CbEffect.removeSub b)] [some a, some b]).invoked = [a]
      ∧ entMembers (notifyRound [(a, CbEffect.removeSub b)] [some a, some b]).entries
          = [a]) := by
  have h1 : (a == b) = false := beq_eq_false_iff_ne.mpr hab
  have h2 : (a == c) = false := beq_eq_false_iff_ne.mpr hac
  have h3 : c ≠ a := Ne.symm hac
  have h4 : c ≠ b := Ne.symm hbc
  have h5 : b ≠ a := Ne.symm hab
  refine ⟨⟨?_, ?_⟩, ?_, ?_⟩ <;>
    simp [notifyRound, roundAux, lookupEff, entAdd, entDelete, entMembers,
      h1, h2, h3, h4, h5, hab]

/-- C4 amended witness at a = 0, b = 1, c = 2. -/
theorem round_uses_live_membership_witness :
    ((notifyRound [(0, CbEffect.addSub 2)] [some 0, some 1]).invoked = [0, 1, 2]
      ∧ entMembers (notifyRound [(0, CbEffect.addSub 2)] [some 0, some 1]).entries
          = [0, 1, 2])
    ∧ ((notifyRound [(0, CbEffect.removeSub 1)] [some 0, some 1]).invoked = [0]
      ∧ entMembers (notifyRound [(0, CbEffect.removeSub 1)] [some 0, some 1]).entries
          = [0]) :=
  round_uses_live_membership 0 1 2 (by decide) (by decide) (by decide)

/-- C9: an exception thrown by a subscriber callback during a notification
round is caught and logged. Whatever the registered callbacks do, `setTime`
on a valid instant never surfaces a subscriber exception to its caller;
and in the concrete round over distinct subscribers {a, b} where `a`
throws, `b` is still invoked in the same round, `a` is logged, the
instant is replaced and the caller sees a normal return. -/
theorem subscriber_throw_is_isolated :
    (∀ (effs : CbTable) (s : NotifyState),
        (setTimeN effs false s (.num 5)).result = .ok ())
    ∧ ∀ a b : SubId, a ≠ b →
        (setTimeN [(a, CbEffect.throwErr)] false ⟨.valid 0, [some a, some b]⟩
            (.num 5)).invoked = [a, b]
        ∧ (setTimeN [(a, CbEffect.throwErr)] false ⟨.valid 0, [some a, some b]⟩
            (.num 5)).errorsCaught = [a]
        ∧ (setTimeN [(a, CbEffect.throwErr)] false ⟨.valid 0, [some a, some b]⟩
            (.num 5)).state.currentTime = .valid 5
        ∧ (setTimeN [(a, CbEffect.throwErr)] false ⟨.valid 0, [some a, some b]⟩
            (.num 5)).result = .ok () := by
  constructor
  · intro effs s
    simp [setTimeN, dateFromNum, maxTime]
  · intro a b hab
    have h1 : (a == b) = false := beq_eq_false_iff_ne.mpr hab
    refine ⟨?_, ?_, ?_, ?_⟩ <;>
      simp [setTimeN, dateFromNum, maxTime, notifyRound, roundAux, lookupEff, h1]

/-- C9 witness at a = 0, b = 1. -/
theorem subscriber_throw_is_isolated_witness :
    (setTimeN [(0, CbEffect.throwErr)] false ⟨.valid 0, [some 0, some 1]⟩
        (.num 5)).invoked = [0, 1]
    ∧ (setTimeN [(0, CbEffect.throwErr)] false ⟨.valid 0, [some 0, some 1]⟩
        (.num 5)).errorsCaught = [0]
    ∧ (setTimeN [(0, CbEffect.throwErr)] false ⟨.valid 0, [some 0, some 1]⟩
        (.num 5)).state.currentTime = .valid 5
    ∧ (setTimeN [(0, CbEffect.throwErr)] false ⟨.valid 0, [some 0, some 1]⟩
        (.num 5)).result = .ok () :=
  subscriber_throw_is_isolated.2 0 1 (by decide)

/-- C10: an exception thrown by the configured `onTimeChange` callback is
not caught: for any in-range instant value, `setTime` (and `addTime`)
with a throwing `onTimeChange` surfaces the exception to the caller, but
the virtual instant has already been replaced and both subscribers have
already been notified — the mutation is never rolled back and subscriber
notification is never suppressed. -/
theorem onchange_throw_escapes_after_mutation :
    ∀ t : Int, -maxTime ≤ t → t ≤ maxTime →
      ((setTimeN [] true ⟨.valid 0, [some 0, some 1]⟩ (.num t)).result
          = .error .onChangeError
        ∧ (setTimeN [] true ⟨.valid 0, [some 0, some 1]⟩ (.num t)).state.currentTime
          = .valid t
        ∧ (setTimeN [] true ⟨.valid 0, [some 0, some 1]⟩ (.num t)).invoked = [0, 1])
      ∧ ((addTimeN [] true ⟨.valid 0, [some 0, some 1]⟩ (.num t)).result
          = .error .onChangeError
        ∧ (addTimeN [] true ⟨.valid 0, [some 0, some 1]⟩ (.num t)).state.currentTime
          = .valid t
        ∧ (addTimeN [] true ⟨.valid 0, [some 0, some 1]⟩ (.num t)).invoked = [0, 1]) := by
  intro t ht1 ht2
  have hd : dateFromNum (.num t) = .valid t := by
    simp [dateFromNum, ht1, ht2]
  refine ⟨⟨?_, ?_, ?_⟩, ?_, ?_, ?_⟩ <;>
    simp [setTimeN, addTimeN, hd, dateGetTime, jsAdd, notifyRound, roundAux, lookupEff]

/-- C10 witness at t = 5. -/
theorem onchange_throw_escapes_after_mutation_witness :
    ((setTimeN [] true ⟨.valid 0, [some 0, some 1]⟩ (.num 5)).result
        = .error .onChangeError
      ∧ (setTimeN [] true ⟨.valid 0, [some 0, some 1]⟩ (.num 5)).state.currentTime
        = .valid 5
      ∧ (setTimeN [] true ⟨.valid 0, [some 0, some 1]⟩ (.num 5)).invoked = [0, 1])
    ∧ ((addTimeN [] true ⟨.valid 0, [some 0, some 1]⟩ (.num 5)).result
        = .error .onChangeError
      ∧ (addTimeN [] true ⟨.valid 0, [some 0, some 1]⟩ (.num 5)).state.currentTime
        = .valid 5
      ∧ (addTimeN [] true ⟨.valid 0, [some 0, some 1]⟩ (.num 5)).invoked = [0, 1]) :=
  onchange_throw_escapes_after_mutation 5 (by decide) (by decide)

/-- C7 amended: the inverse law holds whenever the arithmetic stays inside
the ECMAScript date range: for any controller state holding a valid
instant `t` and any integral finite `m` with both `t` and `t + m·60000`
within `±8.64e15`, `addMinutes(m)` followed by `addMinutes(-m)` returns
the controller to exactly its prior state. -/
theorem addMinutes_inverse_within_range (s : CoreState) (t m : Int)
    (hct : s.currentTime = .valid t)
    (h1 : -maxTime ≤ t) (h2 : t ≤ maxTime)
    (h3 : -maxTime ≤ t + m * 60000) (h4 : t + m * 60000 ≤ maxTime) :
    addMinutesThenInverse s (.num m) = .ok s := by
  have hs : ({ s with currentTime := JSDate.valid t } : CoreState) = s := by
    cases s with
    | mk c e env =>
      simp only at hct
      rw [hct]
  have e1 : addMinutesCore s (.num m)
      = .ok { s with currentTime := JSDate.valid (t + m * 60000) } := by
    simp only [addMinutesCore, addTimeCore, jsMulConst]
    rw [if_neg (by simp)]
    rw [hct]
    simp only [dateGetTime, jsAdd, dateFromNum]
    rw [if_pos ⟨h3, h4⟩]
  have e2 : addMinutesCore { s with currentTime := JSDate.valid (t + m * 60000) }
      (jsNeg (.num m)) = .ok s := by
    simp only [jsNeg, addMinutesCore, addTimeCore, jsMulConst]
    rw [if_neg (by simp)]
    simp only [dateGetTime, jsAdd, dateFromNum]
    have harith : t + m * 60000 + -m * 60000 = t := by ring
    rw [harith, if_pos ⟨h1, h2⟩, hs]
  simp only [addMinutesThenInverse, e1, e2]

/-- C7 amended witness at t = 0, m = 1. -/
theorem addMinutes_inverse_within_range_witness :
    addMinutesThenInverse ⟨.valid 0, false, .development⟩ (.num 1)
      = .ok ⟨.valid 0, false, .development⟩ :=
  addMinutes_inverse_within_range ⟨.valid 0, false, .development⟩ 0 1 rfl
    (by decide) (by decide) (by decide) (by decide)

/-- C8 amended: an explicit `enabled: true` yields an initially Enabled
controller exactly in the environments where the policy allows activation
(development and test) — in production `enable()` re-checks the policy and
the controller stays Disabled despite the explicit `true`; an explicit
`false` forces Disabled in every environment; with the option omitted
("auto") the environment policy decides. -/
theorem explicit_option_vs_environment_policy :
    ∀ env : Environment,
      isActiveAfterInit env (some true) = shouldEnableTimeControl env
      ∧ isActiveAfterInit env (some false) = false
      ∧ isActiveAfterInit env none = shouldEnableTimeControl env := by
  intro env
  cases env <;> exact ⟨rfl, rfl, rfl⟩

/-- Helper: a successful `setTime` changes only the instant. -/
theorem setTimeCore_ok_fields {s : CoreState} {v : JSNum} {s' : CoreState}
    (h : setTimeCore s v = .ok s') :
    s'.enabled = s.enabled ∧ s'.environment = s.environment := by
  unfold setTimeCore at h
  cases hd : dateFromNum v with
  | invalid => rw [hd] at h; exact absurd h (by simp)
  | valid t =>
    rw [hd] at h
    injection h with h2
    rw [← h2]
    exact ⟨rfl, rfl⟩

/-- Helper: a successful `addTime` changes only the instant. -/
theorem addTimeCore_ok_fields {s : CoreState} {ms : JSNum} {s' : CoreState}
    (h : addTimeCore s ms = .ok s') :
    s'.enabled = s.enabled ∧ s'.environment = s.environment := by
  unfold addTimeCore at h
  split at h
  · exact absurd h (by simp)
  · injection h with h2
    rw [← h2]
    exact ⟨rfl, rfl⟩

/-- Helper: in the production environment every public operation keeps the
controller Disabled — `enable()` hits the policy gate and refuses. -/
theorem applyOp_production_disabled {s : CoreState}
    (hEnv : s.environment = .production) (hEn : s.enabled = false) (op : Op) :
    (applyOp s op).environment = .production ∧ (applyOp s op).enabled = false := by
  cases op with
  | setTime v =>
    cases h : setTimeCore s v with
    | error e => simp [applyOp, h, Except.toOption, hEnv, hEn]
    | ok s' =>
      have hf := setTimeCore_ok_fields h
      simp [applyOp, h, Except.toOption, hf.1, hf.2, hEnv, hEn]
  | addTime ms =>
    cases h : addTimeCore s ms with
    | error e => simp [applyOp, h, Except.toOption, hEnv, hEn]
    | ok s' =>
      have hf := addTimeCore_ok_fields h
      simp [applyOp, h, Except.toOption, hf.1, hf.2, hEnv, hEn]
  | addMinutes m =>
    cases h : addTimeCore s (jsMulConst m 60000) with
    | error e => simp [applyOp, addMinutesCore, h, Except.toOption, hEnv, hEn]
    | ok s' =>
      have hf := addTimeCore_ok_fields h
      simp [applyOp, addMinutesCore, h, Except.toOption, hf.1, hf.2, hEnv, hEn]
  | addHours m =>
    cases h : addTimeCore s (jsMulConst m 3600000) with
    | error e => simp [applyOp, addHoursCore, h, Except.toOption, hEnv, hEn]
    | ok s' =>
      have hf := addTimeCore_ok_fields h
      simp [applyOp, addHoursCore, h, Except.toOption, hf.1, hf.2, hEnv, hEn]
  | addDays m =>
    cases h : addTimeCore s (jsMulConst m 86400000) with
    | error e => simp [applyOp, addDaysCore, h, Except.toOption, hEnv, hEn]
    | ok s' =>
      have hf := addTimeCore_ok_fields h
      simp [applyOp, addDaysCore, h, Except.toOption, hf.1, hf.2, hEnv, hEn]
  | resetToRealTime r =>
    cases h : setTimeCore s (.num r) with
    | error e => simp [applyOp, h, Except.toOption, hEnv, hEn]
    | ok s' =>
      have hf := setTimeCore_ok_fields h
      simp [applyOp, h, Except.toOption, hf.1, hf.2, hEnv, hEn]
  | enable =>
    have hgate : shouldEnableTimeControl Environment.production = false := by decide
    simp [applyOp, enableCore, hEn, hEnv, hgate]
  | disable =>
    simp [applyOp, disableCore, hEn, hEnv]
  | subscribeOp => exact ⟨hEnv, hEn⟩
  | unsubscribeOp => exact ⟨hEnv, hEn⟩
  | destroyOp =>
    simp [applyOp, disableCore, hEn, hEnv]

/-- Helper: the Disabled invariant in production, over any operation sequence. -/
theorem runOps_production_disabled :
    ∀ (ops : List Op) (s : CoreState),
      s.environment = .production → s.enabled = false →
      (runOps s ops).enabled = false := by
  intro ops
  induction ops with
  | nil => intro s _ h2; exact h2
  | cons op rest ih =>
    intro s h1 h2
    have h := applyOp_production_disabled h1 h2 op
    exact ih (applyOp s op) h.1 h.2

/-- C1: `shouldEnableTimeControl` is false for production and true for
development and test; and for a controller constructed with environment
production and the activation option left to "auto", the Enabled state is
unreachable — initialization leaves it Disabled, `enable()` is a
throw-free no-op behind the policy gate, and after any sequence of public
operations `isActive()` is still false. -/
theorem production_auto_never_enabled :
    (shouldEnableTimeControl .production = false
      ∧ shouldEnableTimeControl .development = true
      ∧ shouldEnableTimeControl .test = true)
    ∧ ∀ (realNow : Int) (start : JSNum) (s : CoreState) (ops : List Op),
        mkController realNow
            { enabledOpt := none, startTime := start, environment := .production }
          = .ok s →
        (runOps s ops).enabled = false := by
  refine ⟨by decide, ?_⟩
  intro realNow start s ops hmk
  simp only [mkController, Option.getD, shouldEnableTimeControl, if_pos,
    Bool.false_eq_true, if_false] at hmk
  cases h : setTimeCore
      { currentTime := dateFromNum (.num realNow), enabled := false,
        environment := .production } start with
  | error e => rw [h] at hmk; exact absurd hmk (by simp)
  | ok s1 =>
    rw [h] at hmk
    simp only [] at hmk
    have hf := setTimeCore_ok_fields h
    injection hmk with h2
    rw [h2] at hf
    exact runOps_production_disabled ops s hf.2 hf.1

/-- C1 witness: the concrete production controller, after an `enable`
attempt, a time mutation and a second `enable` attempt, is still inactive. -/
theorem production_auto_never_enabled_witness :
    (runOps ⟨.valid 0, false, .production⟩
      [Op.enable, Op.addTime (.num 60000), Op.enable]).enabled = false :=
  production_auto_never_enabled.2 0 (.num 0) ⟨.valid 0, false, .production⟩
    [Op.enable, Op.addTime (.num 60000), Op.enable] (by decide)

/-- Helper: over the three reachable native-hijack states (pristine `P`,
installed `H`, restored-with-stale-backup `P'`), any sequence whose every
install is eventually followed by a restore ends with the pristine `Date`
binding; from `H` a pending restore also brings the binding back. -/
theorem native_run_states : ∀ ops : List NativeOp,
    (everyInstallRestored ops = true →
      (runNative ⟨.original, false, none⟩ ops).dateBinding = .original
      ∧ (runNative ⟨.original, false, some .original⟩ ops).dateBinding = .original)
    ∧ (ops.contains .restore = true → everyInstallRestored ops = true →
      (runNative ⟨.controlled, true, some .original⟩ ops).dateBinding = .original) := by
  intro ops
  induction ops with
  | nil =>
    refine ⟨fun _ => ⟨rfl, rfl⟩, fun hc _ => ?_⟩
    simp [List.contains] at hc
  | cons op rest ih =>
    cases op with
    | install =>
      constructor
      · intro h
        have h' : rest.contains NativeOp.restore = true
            ∧ everyInstallRestored rest = true := by
          simpa [everyInstallRestored, Bool.and_eq_true] using h
        have stepP : runNative ⟨.original, false, none⟩ (NativeOp.install :: rest)
            = runNative ⟨.controlled, true, some .original⟩ rest := rfl
        have stepQ : runNative ⟨.original, false, some .original⟩
              (NativeOp.install :: rest)
            = runNative ⟨.controlled, true, some .original⟩ rest := rfl
        rw [stepP, stepQ]
        exact ⟨ih.2 h'.1 h'.2, ih.2 h'.1 h'.2⟩
      · intro hc h
        have hc' : rest.contains NativeOp.restore = true := by
          have hne : (NativeOp.restore == NativeOp.install) = false := by decide
          simpa [List.contains, List.elem_cons, hne] using hc
        have h' : everyInstallRestored rest = true := by
          have := by simpa [everyInstallRestored, Bool.and_eq_true] using h
          exact this.2
        have stepH : runNative ⟨.controlled, true, some .original⟩
              (NativeOp.install :: rest)
            = runNative ⟨.controlled, true, some .original⟩ rest := rfl
        rw [stepH]
        exact ih.2 hc' h'
    | restore =>
      constructor
      · intro h
        have h' : everyInstallRestored rest = true := by
          simpa [everyInstallRestored] using h
        have stepP : runNative ⟨.original, false, none⟩ (NativeOp.restore :: rest)
            = runNative ⟨.original, false, none⟩ rest := rfl
        have stepQ : runNative ⟨.original, false, some .original⟩
              (NativeOp.restore :: rest)
            = runNative ⟨.original, false, some .original⟩ rest := rfl
        rw [stepP, stepQ]
        exact (ih.1 h')
      · intro _ h
        have h' : everyInstallRestored rest = true := by
          simpa [everyInstallRestored] using h
        have stepH : runNative ⟨.controlled, true, some .original⟩
              (NativeOp.restore :: rest)
            = runNative ⟨.original, false, some .original⟩ rest := rfl
        rw [stepH]
        exact (ih.1 h').2

/-- C2 amended: the full invariant holds for the native surface — any
sequence of install/restore calls in which every install is eventually
followed by a restore leaves the global `Date` binding pristine, and a
second install without an intervening restore is a pure no-op behind the
`isHijacked` guard. For the library integrations only the immediate
symmetry holds: a `dayjs` (or `moment`) install immediately undone by a
restore returns the pristine binding, but a second install without an
intervening restore is not a no-op — it wraps the already-wrapped binding,
so a single restore afterwards yields the once-wrapped binding instead of
the pristine one. -/
theorem install_restore_symmetry_amended :
    (∀ ops : List NativeOp, everyInstallRestored ops = true →
        (runNative pristineNative ops).dateBinding = .original)
    ∧ (∀ h : NativeHijack, h.isHijacked = true → hijackNativeFunctions h = h)
    ∧ (∀ d : DayjsBinding, restoreDayjs (hijackDayjs d) = d)
    ∧ restoreMoment (hijackMoment .original) = .original
    ∧ (restoreDayjs (hijackDayjs (hijackDayjs .original)) = .wrapped .original
      ∧ hijackDayjs (hijackDayjs .original) ≠ hijackDayjs .original) := by
  refine ⟨?_, ?_, ?_, by decide, by decide⟩
  · intro ops h
    exact ((native_run_states ops).1 h).1
  · intro h hh
    simp [hijackNativeFunctions, hh]
  · intro d
    rfl

/-- C2 amended witness: the concrete double-install-then-restore sequence
on the native surface ends pristine, a concrete second native install is a
no-op, and a concrete `dayjs` install is undone by a restore. -/
theorem install_restore_symmetry_amended_witness :
    (runNative pristineNative
        [NativeOp.install, NativeOp.install, NativeOp.restore]).dateBinding = .original
    ∧ hijackNativeFunctions ⟨.controlled, true, some .original⟩
        = ⟨.controlled, true, some .original⟩
    ∧ restoreDayjs (hijackDayjs (.wrapped .original)) = .wrapped .original :=
  ⟨install_restore_symmetry_amended.1
      [NativeOp.install, NativeOp.install, NativeOp.restore] (by decide),
    install_restore_symmetry_amended.2.1 ⟨.controlled, true, some .original⟩ rfl,
    install_restore_symmetry_amended.2.2.1 (.wrapped .original)⟩

end RTT
